import Mathlib

/-!
Shallow embedding of the DeDuperBot duplicate-cleaner core (src/main.py,
class DuplicateCleanerBot) together with theorems settling the frozen
claims about its specification.

Modelling conventions:
* Python strings are modelled as lists of Unicode code points (`Str`),
  so that `str.lower` / `str.strip` / `str.split` become structurally
  recursive functions that can be reasoned about.  `str.lower` is
  modelled on the ASCII letters, which is the fragment exercised here.
* `datetime` timestamps are modelled as integers (`Int`); the only
  operations the code performs on them are comparison and subtraction
  of a fixed expiry interval.
* Python `dict`s (which preserve insertion order) are modelled as
  association lists in insertion order; `defaultdict` reads are
  modelled with a default value on missing keys.
* The SHA-256 hex digest is modelled as the identity function on the
  canonical combined content string: every claim under verification
  concerns equality or inequality of fingerprints of the canonical
  strings, which is preserved by any deterministic injective digest
  (the spec itself idealises the digest as collision-free).
* The hard-coded constants MAX_ENTRIES_PER_CHAT = 10000,
  EXPIRY_DAYS = None and MAX_ERRORS_PER_CHAT = 10 of `__init__` are
  collected into a `Config` record whose `defaultConfig` value carries
  exactly those constants, so that theorems quantify over the
  configured values the way the spec states them.
-/

namespace DeDuperBot

/-- Python strings as lists of Unicode code points. -/
abbrev Str := List Nat

/-- Embed a Lean string literal as a code-point list. -/
def str2cp (s : String) : Str := s.data.map Char.toNat

/-- Decimal rendering of a number, as Python f-strings do. -/
def cpOfNat (n : Nat) : Str := str2cp (toString n)

/-- Whitespace code points recognised by `str.split()` / `str.strip()`
(space, tab, newline, carriage return, vertical tab, form feed). -/
def isWsCp (n : Nat) : Bool := n = 32 || n = 9 || n = 10 || n = 13 || n = 11 || n = 12

/-- `str.lower` on one code point (ASCII fragment). -/
def lowerCp (n : Nat) : Nat := if 65 ≤ n ∧ n ≤ 90 then n + 32 else n

/-- `str.lower`. -/
def pylower (s : Str) : Str := s.map lowerCp

/-- Leading-whitespace removal (left half of `str.strip`). -/
def dropLeadWs (s : Str) : Str := s.dropWhile isWsCp

/-- Trailing-whitespace removal (right half of `str.strip`). -/
def dropTrailWs : Str → Str
  | [] => []
  | c :: s =>
    match dropTrailWs s with
    | [] => if isWsCp c then [] else [c]
    | d :: t => c :: d :: t

/-- `str.strip()`. -/
def pytrim (s : Str) : Str := dropTrailWs (dropLeadWs s)

/-- `str.split()` with no separator: split on whitespace runs,
dropping empty fragments. -/
def pywords : Str → List Str
  | [] => []
  | c :: rest =>
    if isWsCp c then pywords rest
    else
      match rest with
      | [] => [[c]]
      | d :: _ =>
        if isWsCp d then [c] :: pywords rest
        else (c :: (pywords rest).headD []) :: (pywords rest).tail

/-- `' '.join(ws)`. -/
def joinSpace (ws : List Str) : Str := List.intercalate [32] ws

/-- The normalisation applied to text and caption:
`' '.join(s.strip().lower().split())` (main.py lines 206, 211). -/
def normalizeStr (s : Str) : Str := joinSpace (pywords (pylower (pytrim s)))

/-- The case/whitespace-insensitive word sequence of a string: the
canonical representative of the claim's notion of "identical semantic
content irrespective of letter case and whitespace runs". -/
def canonWords (s : Str) : List Str := pywords (pylower s)

/-- Truthiness of an optional string field (`None` and `""` are falsy). -/
def optStrTruthy : Option Str → Bool
  | none => false
  | some s => !s.isEmpty

/-- Truthiness of an optional numeric field (`None` and `0` are falsy). -/
def natTruthy : Option Nat → Bool
  | none => false
  | some n => n != 0

/-- Lexicographic code-point comparison, the order `sorted` uses on
Python strings. -/
def lexLeCp : Str → Str → Bool
  | [], _ => true
  | _ :: _, [] => false
  | a :: as, b :: bs => if a < b then true else if b < a then false else lexLeCp as bs

/-- Insert one part into a lexicographically sorted list of parts. -/
def insPart (x : Str) : List Str → List Str
  | [] => [x]
  | y :: ys => if lexLeCp x y then x :: y :: ys else y :: insPart x ys

/-- `sorted(content_parts)` (main.py line 272). -/
def sortParts : List Str → List Str
  | [] => []
  | x :: xs => insPart x (sortParts xs)

/-! ## Message model (the fields of `telegram.Message` that
`generate_message_hash` and `handle_message` read) -/

structure PhotoSize where
  file_unique_id : Str
  file_size : Option Nat
deriving DecidableEq

structure DocumentMedia where
  file_unique_id : Str
  file_name : Option Str
  file_size : Option Nat
deriving DecidableEq

structure VideoMedia where
  file_unique_id : Str
  duration : Option Nat
  file_size : Option Nat
deriving DecidableEq

structure AudioMedia where
  file_unique_id : Str
  duration : Option Nat
  title : Option Str
  file_size : Option Nat
deriving DecidableEq

structure VoiceMedia where
  file_unique_id : Str
  duration : Option Nat
  file_size : Option Nat
deriving DecidableEq

structure VideoNoteMedia where
  file_unique_id : Str
  duration : Option Nat
  file_size : Option Nat
deriving DecidableEq

structure StickerMedia where
  file_unique_id : Str
  set_name : Option Str
  file_size : Option Nat
deriving DecidableEq

structure AnimationMedia where
  file_unique_id : Str
  file_size : Option Nat
deriving DecidableEq

/-- The inbound content descriptor.  `photo` is a list because Telegram
delivers one photo as several `PhotoSize` entries; `forward_origin_present`
models `message.forward_origin is not None`. -/
structure Message where
  text : Option Str
  caption : Option Str
  photo : List PhotoSize
  document : Option DocumentMedia
  video : Option VideoMedia
  audio : Option AudioMedia
  voice : Option VoiceMedia
  video_note : Option VideoNoteMedia
  sticker : Option StickerMedia
  animation : Option AnimationMedia
  message_id : Nat
  forward_origin_present : Bool
deriving DecidableEq

/-- A message with every content field absent, for building examples. -/
def emptyMessage : Message :=
  { text := none, caption := none, photo := [], document := none, video := none,
    audio := none, voice := none, video_note := none, sticker := none,
    animation := none, message_id := 0, forward_origin_present := false }

/-- `max(message.photo, key=lambda x: x.file_size or 0)` (main.py
line 216): Python's `max` keeps the first element among ties, replacing
the running best only on a strictly larger key. -/
def photoKey (p : PhotoSize) : Nat := p.file_size.getD 0

def pickLargest (h : PhotoSize) (t : List PhotoSize) : PhotoSize :=
  t.foldl (fun best q => if photoKey q > photoKey best then q else best) h

/-! ## `generate_message_hash` (main.py lines 199-276), split into the
per-field part collectors in source order -/

def textPart (m : Message) : List Str :=
  if optStrTruthy m.text then [str2cp "text:" ++ normalizeStr (m.text.getD [])] else []

def captionPart (m : Message) : List Str :=
  if optStrTruthy m.caption then [str2cp "caption:" ++ normalizeStr (m.caption.getD [])] else []

def photoParts (m : Message) : List Str :=
  match m.photo with
  | [] => []
  | p :: ps =>
    let lp := pickLargest p ps
    [str2cp "photo:" ++ lp.file_unique_id]
      ++ (if natTruthy lp.file_size then [str2cp "size:" ++ cpOfNat (lp.file_size.getD 0)] else [])

def documentParts (m : Message) : List Str :=
  match m.document with
  | none => []
  | some d =>
    [str2cp "document:" ++ d.file_unique_id]
      ++ (if optStrTruthy d.file_name then [str2cp "filename:" ++ pylower (d.file_name.getD [])] else [])
      ++ (if natTruthy d.file_size then [str2cp "size:" ++ cpOfNat (d.file_size.getD 0)] else [])

def videoParts (m : Message) : List Str :=
  match m.video with
  | none => []
  | some v =>
    [str2cp "video:" ++ v.file_unique_id]
      ++ (if natTruthy v.duration then [str2cp "duration:" ++ cpOfNat (v.duration.getD 0)] else [])
      ++ (if natTruthy v.file_size then [str2cp "size:" ++ cpOfNat (v.file_size.getD 0)] else [])

def audioParts (m : Message) : List Str :=
  match m.audio with
  | none => []
  | some a =>
    [str2cp "audio:" ++ a.file_unique_id]
      ++ (if natTruthy a.duration then [str2cp "duration:" ++ cpOfNat (a.duration.getD 0)] else [])
      ++ (if optStrTruthy a.title then [str2cp "title:" ++ pylower (a.title.getD [])] else [])

def voiceParts (m : Message) : List Str :=
  match m.voice with
  | none => []
  | some v =>
    [str2cp "voice:" ++ v.file_unique_id]
      ++ (if natTruthy v.duration then [str2cp "duration:" ++ cpOfNat (v.duration.getD 0)] else [])

def videoNoteParts (m : Message) : List Str :=
  match m.video_note with
  | none => []
  | some v =>
    [str2cp "video_note:" ++ v.file_unique_id]
      ++ (if natTruthy v.duration then [str2cp "duration:" ++ cpOfNat (v.duration.getD 0)] else [])

def stickerParts (m : Message) : List Str :=
  match m.sticker with
  | none => []
  | some st =>
    [str2cp "sticker:" ++ st.file_unique_id]
      ++ (if optStrTruthy st.set_name then [str2cp "set:" ++ st.set_name.getD []] else [])

def animationParts (m : Message) : List Str :=
  match m.animation with
  | none => []
  | some a =>
    [str2cp "animation:" ++ a.file_unique_id]
      ++ (if natTruthy a.file_size then [str2cp "size:" ++ cpOfNat (a.file_size.getD 0)] else [])

/-- The `content_parts` list, built in exactly the field order of
`generate_message_hash`. -/
def contentParts (m : Message) : List Str :=
  textPart m ++ captionPart m ++ photoParts m ++ documentParts m ++ videoParts m
    ++ audioParts m ++ voiceParts m ++ videoNoteParts m ++ stickerParts m ++ animationParts m

/-- `message_type`: each `if` in `generate_message_hash` overwrites the
running value, so the final value is the last present kind in source
order (text, photo, document, video, audio, voice, video_note, sticker,
animation). -/
def messageType (m : Message) : Option String :=
  let t : Option String := if optStrTruthy m.text then some "text" else none
  let t := if !m.photo.isEmpty then some "photo" else t
  let t := if m.document.isSome then some "document" else t
  let t := if m.video.isSome then some "video" else t
  let t := if m.audio.isSome then some "audio" else t
  let t := if m.voice.isSome then some "voice" else t
  let t := if m.video_note.isSome then some "video_note" else t
  let t := if m.sticker.isSome then some "sticker" else t
  if m.animation.isSome then some "animation" else t

/-- SHA-256 hex digest, modelled as the identity on the canonical
combined content string (see the header comment). -/
def sha256Digest (s : Str) : Str := s

/-- `generate_message_hash`: returns `(hash, message_type)`, or
`(none, none)` when no content part exists. -/
def generateMessageHash (m : Message) : Option Str × Option String :=
  let parts := contentParts m
  if parts.isEmpty then (none, none)
  else (some (sha256Digest (List.intercalate (str2cp "|") (sortParts parts))), messageType m)

/-! ## Store and bot state -/

/-- One stored record (the metadata dict built in `handle_message`'s
new-message branch).  The Python key "type" is spelled `mtype`. -/
structure Record where
  timestamp : Int
  message_id : Nat
  mtype : Option String
  forwarded : Bool
  user_id : Nat
  size : Option Nat
deriving DecidableEq

/-- Insertion-ordered association-list lookup (Python dict access). -/
def alookup {κ β : Type} [DecidableEq κ] : List (κ × β) → κ → Option β
  | [], _ => none
  | (k', v) :: rest, k => if k' = k then some v else alookup rest k

/-- Python dict assignment: overwrite in place when the key is present
(keeping its position), otherwise append at the end. -/
def aset {κ β : Type} [DecidableEq κ] : List (κ × β) → κ → β → List (κ × β)
  | [], k, v => [(k, v)]
  | (k', v') :: rest, k, v =>
    if k' = k then (k', v) :: rest else (k', v') :: aset rest k v

/-- Python `del d[k]` (removes the entry when present). -/
def adel {κ β : Type} [DecidableEq κ] : List (κ × β) → κ → List (κ × β)
  | [], _ => []
  | (k', v') :: rest, k => if k' = k then rest else (k', v') :: adel rest k

/-- One conversation's store: fingerprint → record, in insertion order. -/
abbrev ChatStore := List (Str × Record)

/-- `self.message_store`: chat id → per-chat store. -/
abbrev MessageStore := List (Int × ChatStore)

/-- `self.message_store[chat_id]` under `defaultdict(dict)`. -/
def getChat (ms : MessageStore) (c : Int) : ChatStore := (alookup ms c).getD []

/-- Sum of all conversation sizes, as computed at main.py line 551. -/
def sumSizes (ms : MessageStore) : Nat := (ms.map (fun p => p.2.length)).sum

/-- The per-content-kind processed counters
(`self.stats['content_types_processed']`); note the dict has no
`video_note` key. -/
structure ContentTypeCounts where
  text : Nat
  photo : Nat
  video : Nat
  audio : Nat
  document : Nat
  voice : Nat
  sticker : Nat
  animation : Nat
deriving DecidableEq

/-- `if message_type and message_type in self.stats['content_types_processed']:
... += 1` (main.py lines 491-492). -/
def bumpContentType (ct : ContentTypeCounts) : Option String → ContentTypeCounts
  | some "text" => { ct with text := ct.text + 1 }
  | some "photo" => { ct with photo := ct.photo + 1 }
  | some "video" => { ct with video := ct.video + 1 }
  | some "audio" => { ct with audio := ct.audio + 1 }
  | some "document" => { ct with document := ct.document + 1 }
  | some "voice" => { ct with voice := ct.voice + 1 }
  | some "sticker" => { ct with sticker := ct.sticker + 1 }
  | some "animation" => { ct with animation := ct.animation + 1 }
  | _ => ct

/-- `self.stats` (the fields the core mutates; `start_time` is wall
clock and is omitted). -/
structure Stats where
  messages_processed : Nat
  duplicates_deleted : Nat
  active_chats_count : Nat
  avg_response_time : ℚ
  total_memory_usage : Nat
  largest_chat_size : Nat
  content_types_processed : ContentTypeCounts
  forwarded_duplicates : Nat
  original_duplicates : Nat
deriving DecidableEq

/-- The whole mutable bot state. -/
structure BotState where
  message_store : MessageStore
  active_chats : List (Int × Bool)
  auto_activated_channels : List Int
  rate_limit_tracker : List (Int × List Int)
  error_tracker : List (Int × Nat)
  stats : Stats
deriving DecidableEq

/-- `self.active_chats.get(chat_id, False)` (`defaultdict(bool)`). -/
def getActive (s : BotState) (c : Int) : Bool := (alookup s.active_chats c).getD false

/-- `self.error_tracker[chat_id]` (`defaultdict(int)`). -/
def getErr (s : BotState) (c : Int) : Nat := (alookup s.error_tracker c).getD 0

/-- `self.rate_limit_tracker[chat_id]` (`defaultdict(list)`). -/
def getRate (s : BotState) (c : Int) : List Int := (alookup s.rate_limit_tracker c).getD []

/-- The configured constants of `__init__`. -/
structure Config where
  maxEntries : Nat
  expiryDays : Option Nat
  maxErrors : Nat

/-- MAX_ENTRIES_PER_CHAT = 10000, EXPIRY_DAYS = None,
MAX_ERRORS_PER_CHAT = 10 (main.py lines 118, 144, 147). -/
def defaultConfig : Config := { maxEntries := 10000, expiryDays := none, maxErrors := 10 }

/-! ## Retention: capacity eviction and age expiry -/

/-- Stable insertion of one entry into a list sorted by descending
timestamp: the incoming element goes after every element whose
timestamp is at least its own, which is how Python's stable
`sorted(..., reverse=True)` orders tied keys. -/
def insertByTs (x : Str × Record) : ChatStore → ChatStore
  | [] => [x]
  | y :: ys => if y.2.timestamp ≤ x.2.timestamp then x :: y :: ys else y :: insertByTs x ys

/-- `sorted(chat_messages.items(), key=lambda x: x[1]["timestamp"],
reverse=True)` (main.py lines 187-191): stable descending sort. -/
def sortByTsDesc : ChatStore → ChatStore
  | [] => []
  | x :: xs => insertByTs x (sortByTsDesc xs)

/-- `limit_chat_entries` (main.py lines 181-197): when the chat holds
more than MAX_ENTRIES_PER_CHAT entries, keep only the newest
MAX_ENTRIES_PER_CHAT of the stable descending sort. -/
def limitChatEntries (cfg : Config) (ms : MessageStore) (c : Int) : MessageStore :=
  let chat := getChat ms c
  if chat.length > cfg.maxEntries then
    aset ms c ((sortByTsDesc chat).take cfg.maxEntries)
  else ms

/-- `cleanup_expired_messages` (main.py lines 154-179): a no-op when
EXPIRY_DAYS is None, otherwise drop every entry older than
`now - EXPIRY_DAYS` and remove chats left empty. -/
def cleanupExpired (cfg : Config) (now : Int) (ms : MessageStore) : MessageStore :=
  match cfg.expiryDays with
  | none => ms
  | some d =>
    (ms.map (fun p => (p.1, p.2.filter (fun e => !(decide (e.2.timestamp < now - (d : Int))))))).filter
      (fun p => !p.2.isEmpty)

/-- The periodic sweep `cleanup_job`: it calls `cleanup_expired_messages`,
which touches only `message_store`. -/
def runSweep (cfg : Config) (now : Int) (s : BotState) : BotState :=
  { s with message_store := cleanupExpired cfg now s.message_store }

/-! ## Message handling -/

/-- Outcome of the external `delete_message` call on the duplicate path. -/
inductive ErrKind
  | rateLimited
  | cantDelete
  | noRights
  | other
deriving DecidableEq

inductive DeleteOutcome
  | ok
  | err (k : ErrKind)
deriving DecidableEq

/-- The store-level insert: dict assignment of the new record followed
by the capacity check, exactly the store effect of `handle_message`'s
new-message branch (main.py lines 541-548 and 557). -/
def insertRecord (cfg : Config) (ms : MessageStore) (c : Int) (fp : Str) (rec : Record) :
    MessageStore :=
  limitChatEntries cfg (aset ms c (aset (getChat ms c) fp rec)) c

/-- Timestamp refresh of an existing entry
(`chat_messages[message_hash]["timestamp"] = current_time`,
main.py line 518): in-place update preserving dict position. -/
def touchTimestamp (chat : ChatStore) (fp : Str) (now : Int) : ChatStore :=
  chat.map (fun e => if e.1 = fp then (e.1, { e.2 with timestamp := now }) else e)

/-- `"size": getattr(getattr(update.message, message_type, None),
'file_size', None) if message_type else None` (main.py line 547).
For "text" the attribute is a string and for "photo" a list, neither of
which has `file_size`, so both give `None`. -/
def extractSize (m : Message) : Option String → Option Nat
  | some "document" => m.document.bind (fun d => d.file_size)
  | some "video" => m.video.bind (fun v => v.file_size)
  | some "audio" => m.audio.bind (fun a => a.file_size)
  | some "voice" => m.voice.bind (fun v => v.file_size)
  | some "video_note" => m.video_note.bind (fun v => v.file_size)
  | some "sticker" => m.sticker.bind (fun s => s.file_size)
  | some "animation" => m.animation.bind (fun a => a.file_size)
  | _ => none

/-- The metadata dict stored for a new message (main.py lines 541-548). -/
def mkRecord (m : Message) (mtype : Option String) (userId : Nat) (now : Int) : Record :=
  { timestamp := now, message_id := m.message_id, mtype := mtype,
    forwarded := m.forward_origin_present, user_id := userId,
    size := extractSize m mtype }

/-- The new-message branch of `handle_message` (main.py lines 539-557):
store the record, recompute `total_memory_usage` over the whole store,
raise the running `largest_chat_size` maximum, then apply the capacity
limit.  Note both aggregates are computed before `limit_chat_entries`
runs. -/
def newMessageBranch (cfg : Config) (s : BotState) (c : Int) (fp : Str) (rec : Record) :
    BotState :=
  let chat' := aset (getChat s.message_store c) fp rec
  let store' := aset s.message_store c chat'
  let total := sumSizes store'
  let largest :=
    if chat'.length > s.stats.largest_chat_size then chat'.length else s.stats.largest_chat_size
  { s with
    message_store := limitChatEntries cfg store' c,
    stats := { s.stats with total_memory_usage := total, largest_chat_size := largest } }

/-- The `except TelegramError` branch of the duplicate path (main.py
lines 520-538): bump the error counter, record rate-limit events, and
auto-deactivate the chat once the counter exceeds MAX_ERRORS_PER_CHAT. -/
def dupErrorBranch (cfg : Config) (s : BotState) (c : Int) (k : ErrKind) (now : Int) :
    BotState :=
  let e := getErr s c + 1
  let s1 := { s with error_tracker := aset s.error_tracker c e }
  let s2 :=
    if k = ErrKind.rateLimited then
      { s1 with rate_limit_tracker := aset s1.rate_limit_tracker c (getRate s1 c ++ [now]) }
    else s1
  if e > cfg.maxErrors then { s2 with active_chats := aset s2.active_chats c false } else s2

/-- The successful-delete duplicate branch (main.py lines 500-518):
count the forwarded/original duplicate, count the deletion, and refresh
the stored record's timestamp. -/
def dupOkBranch (s : BotState) (c : Int) (fp : Str) (isFwd : Bool) (now : Int) : BotState :=
  let st :=
    if isFwd then { s.stats with forwarded_duplicates := s.stats.forwarded_duplicates + 1 }
    else { s.stats with original_duplicates := s.stats.original_duplicates + 1 }
  let st := { st with duplicates_deleted := st.duplicates_deleted + 1 }
  { s with
    stats := st,
    message_store := aset s.message_store c (touchTimestamp (getChat s.message_store c) fp now) }

/-- `update.message.text and update.message.text.startswith('/')`. -/
def isCommandText : Option Str → Bool
  | some (c :: _) => c = 47
  | _ => false

/-- `handle_message` (main.py lines 467-564).  External inputs are the
chat id, the message, the sender's `is_bot` flag and id, the current
time, the outcome of the external delete call (consulted only on the
duplicate path), and the measured response-time sample in milliseconds. -/
def handleMessage (cfg : Config) (s : BotState) (c : Int) (m : Message)
    (userIsBot : Bool) (userId : Nat) (now : Int) (outcome : DeleteOutcome) (sample : ℚ) :
    BotState :=
  let s1 := { s with stats := { s.stats with messages_processed := s.stats.messages_processed + 1 } }
  if !getActive s1 c then s1
  else if userIsBot || (optStrTruthy m.text && isCommandText m.text) then s1
  else
    match generateMessageHash m with
    | (none, _) => s1
    | (some fp, mtype) =>
      let s2 := { s1 with stats :=
        { s1.stats with content_types_processed :=
            bumpContentType s1.stats.content_types_processed mtype } }
      let s3 :=
        if (alookup (getChat s2.message_store c) fp).isSome then
          match outcome with
          | DeleteOutcome.ok => dupOkBranch s2 c fp m.forward_origin_present now
          | DeleteOutcome.err k => dupErrorBranch cfg s2 c k now
        else newMessageBranch cfg s2 c fp (mkRecord m mtype userId now)
      { s3 with stats := { s3.stats with avg_response_time :=
          if s3.stats.avg_response_time = 0 then sample
          else (s3.stats.avg_response_time + sample) / 2 } }

/-- `stop_bot_command` (main.py lines 388-417): deactivate, drop the
auto-activation mark, clear the chat's store, and recount active chats. -/
def stopBot (s : BotState) (c : Int) : BotState :=
  let s1 := { s with
    active_chats := aset s.active_chats c false,
    auto_activated_channels := s.auto_activated_channels.filter (fun x => x != c),
    message_store := adel s.message_store c }
  { s1 with stats :=
    { s1.stats with active_chats_count := (s1.active_chats.filter (fun p => p.2)).length } }

/-- Iterated delete failures on one chat: `n` consecutive runs of the
duplicate-path error branch (the code's `record_failure` behaviour). -/
def iterFail (cfg : Config) (c : Int) (k : ErrKind) (now : Int) : Nat → BotState → BotState
  | 0, s => s
  | n + 1, s => dupErrorBranch cfg (iterFail cfg c k now n s) c k now

end DeDuperBot

namespace DeDuperBot

/-! ## Association-list lemmas -/

theorem alookup_aset_self {κ β : Type} [DecidableEq κ] (l : List (κ × β)) (k : κ) (v : β) :
    alookup (aset l k v) k = some v := by
  induction l with
  | nil => simp [aset, alookup]
  | cons p rest ih =>
    obtain ⟨k', v'⟩ := p
    by_cases h : k' = k
    · simp [aset, alookup, h]
    · simp [aset, alookup, h, ih]

theorem alookup_aset_of_ne {κ β : Type} [DecidableEq κ] (l : List (κ × β)) (k k' : κ) (v : β)
    (h : k' ≠ k) : alookup (aset l k v) k' = alookup l k' := by
  have hk : ¬ k = k' := fun hh => h hh.symm
  induction l with
  | nil => simp [aset, alookup, hk]
  | cons p rest ih =>
    obtain ⟨k₀, v₀⟩ := p
    by_cases h₀ : k₀ = k
    · subst h₀
      simp [aset, alookup, hk]
    · simp [aset, alookup, h₀, ih]

theorem getChat_aset_self (ms : MessageStore) (c : Int) (v : ChatStore) :
    getChat (aset ms c v) c = v := by
  simp [getChat, alookup_aset_self]

theorem getChat_aset_of_ne (ms : MessageStore) (c c' : Int) (v : ChatStore) (h : c' ≠ c) :
    getChat (aset ms c v) c' = getChat ms c' := by
  simp [getChat, alookup_aset_of_ne _ _ _ _ h]

/-! ## Lemmas about the stable descending sort used by eviction -/

theorem insertByTs_perm (x : Str × Record) (l : ChatStore) :
    (insertByTs x l).Perm (x :: l) := by
  induction l with
  | nil => simp [insertByTs]
  | cons y ys ih =>
    by_cases h : y.2.timestamp ≤ x.2.timestamp
    · simp [insertByTs, h]
    · simp only [insertByTs, if_neg h]
      exact (ih.cons y).trans (List.Perm.swap x y ys)

theorem sortByTsDesc_perm (l : ChatStore) : (sortByTsDesc l).Perm l := by
  induction l with
  | nil => simp [sortByTsDesc]
  | cons x xs ih =>
    exact (insertByTs_perm x (sortByTsDesc xs)).trans (ih.cons x)

theorem mem_insertByTs {a x : Str × Record} {l : ChatStore} :
    a ∈ insertByTs x l ↔ a = x ∨ a ∈ l := by
  rw [(insertByTs_perm x l).mem_iff]
  simp

/-- Descending-timestamp order on store entries. -/
def tsGE (a b : Str × Record) : Prop := b.2.timestamp ≤ a.2.timestamp

theorem insertByTs_pairwise (x : Str × Record) (l : ChatStore)
    (h : l.Pairwise tsGE) : (insertByTs x l).Pairwise tsGE := by
  induction l with
  | nil => simp [insertByTs, tsGE]
  | cons y ys ih =>
    rcases List.pairwise_cons.mp h with ⟨hy, hys⟩
    by_cases hle : y.2.timestamp ≤ x.2.timestamp
    · simp only [insertByTs, if_pos hle]
      refine List.pairwise_cons.mpr ⟨?_, h⟩
      intro z hz
      rcases List.mem_cons.mp hz with hz | hz
      · subst hz; exact hle
      · exact le_trans (hy z hz) hle
    · simp only [insertByTs, if_neg hle]
      refine List.pairwise_cons.mpr ⟨?_, ih hys⟩
      intro z hz
      rcases mem_insertByTs.mp hz with hz | hz
      · subst hz
        exact le_of_lt (lt_of_not_le hle)
      · exact hy z hz

theorem sortByTsDesc_pairwise (l : ChatStore) : (sortByTsDesc l).Pairwise tsGE := by
  induction l with
  | nil => simp [sortByTsDesc]
  | cons x xs ih => exact insertByTs_pairwise x (sortByTsDesc xs) ih

/-- Filtering the entries carrying one fixed timestamp commutes with the
stable insertion: skipped entries are strictly newer than `x`. -/
theorem filter_insertByTs (x : Str × Record) (l : ChatStore) (t : Int) :
    (insertByTs x l).filter (fun e => e.2.timestamp == t)
      = if x.2.timestamp = t then x :: l.filter (fun e => e.2.timestamp == t)
        else l.filter (fun e => e.2.timestamp == t) := by
  induction l with
  | nil =>
    by_cases hx : x.2.timestamp = t
    · simp [insertByTs, List.filter_cons, hx]
    · simp [insertByTs, List.filter_cons, hx]
  | cons y ys ih =>
    by_cases hle : y.2.timestamp ≤ x.2.timestamp
    · rw [insertByTs, if_pos hle]
      by_cases hx : x.2.timestamp = t
      · by_cases hy : y.2.timestamp = t
        · simp [List.filter_cons, hx, hy]
        · simp [List.filter_cons, hx, hy]
      · by_cases hy : y.2.timestamp = t
        · simp [List.filter_cons, hx, hy]
        · simp [List.filter_cons, hx, hy]
    · rw [insertByTs, if_neg hle]
      have hgt : x.2.timestamp < y.2.timestamp := lt_of_not_le hle
      by_cases hx : x.2.timestamp = t
      · have hy : ¬ y.2.timestamp = t := by
          intro hyt
          rw [hx, hyt] at hgt
          exact lt_irrefl t hgt
        simp [List.filter_cons, hx, hy, ih]
      · by_cases hy : y.2.timestamp = t
        · simp [List.filter_cons, hx, hy, ih]
        · simp [List.filter_cons, hx, hy, ih]

/-- Stability of the eviction sort: the subsequence of entries carrying
any fixed timestamp is preserved in insertion order. -/
theorem sortByTsDesc_filter (l : ChatStore) (t : Int) :
    (sortByTsDesc l).filter (fun e => e.2.timestamp == t)
      = l.filter (fun e => e.2.timestamp == t) := by
  induction l with
  | nil => simp [sortByTsDesc]
  | cons x xs ih =>
    rw [sortByTsDesc, filter_insertByTs]
    by_cases hx : x.2.timestamp = t
    · simp [List.filter_cons, hx, ih]
    · simp [List.filter_cons, hx, ih]

end DeDuperBot

namespace DeDuperBot

/-! ## Claim C1: capacity invariant after insert -/

/-- C1: for every conversation and every state of its store, immediately
after an insert of a new record completes (including the capacity
eviction `limit_chat_entries` may trigger), the number of stored entries
for that conversation is at most the configured per-conversation
capacity (default 10000). -/
theorem C1_insert_capacity_invariant (cfg : Config) (ms : MessageStore) (c : Int)
    (fp : Str) (rec : Record) :
    (getChat (insertRecord cfg ms c fp rec) c).length ≤ cfg.maxEntries := by
  simp only [insertRecord, limitChatEntries, getChat_aset_self]
  by_cases h : (aset (getChat ms c) fp rec).length > cfg.maxEntries
  · rw [if_pos h, getChat_aset_self, List.length_take]
    exact min_le_left _ _
  · rw [if_neg h, getChat_aset_self]
    omega

/-! ## Claim C2: the eviction rule -/

/-- The post-state of a triggered capacity eviction: the conversation
keeps exactly the `capacity` newest entries of the stable descending
sort; every evicted entry is at least as old as every kept entry; within
each tied timestamp the kept entries are the earlier-inserted prefix and
the evicted ones the later-inserted suffix; other conversations are
untouched. -/
def evictionPost (cfg : Config) (ms : MessageStore) (c : Int) : Prop :=
  getChat (limitChatEntries cfg ms c) c = (sortByTsDesc (getChat ms c)).take cfg.maxEntries
  ∧ (getChat (limitChatEntries cfg ms c) c).length = cfg.maxEntries
  ∧ (∀ e ∈ (sortByTsDesc (getChat ms c)).drop cfg.maxEntries,
      ∀ k ∈ (sortByTsDesc (getChat ms c)).take cfg.maxEntries,
        e.2.timestamp ≤ k.2.timestamp)
  ∧ (∀ t : Int,
      ((sortByTsDesc (getChat ms c)).take cfg.maxEntries).filter (fun e => e.2.timestamp == t)
        ++ ((sortByTsDesc (getChat ms c)).drop cfg.maxEntries).filter (fun e => e.2.timestamp == t)
      = (getChat ms c).filter (fun e => e.2.timestamp == t))
  ∧ (∀ c' : Int, c' ≠ c → getChat (limitChatEntries cfg ms c) c' = getChat ms c')

/-- C2 (amended): when a conversation's entry count exceeds capacity,
eviction removes entries in ascending order of last-seen timestamp
(oldest first), breaking timestamp ties by evicting the LATER-inserted
entry first (the earlier-inserted tied entries are the ones kept), stops
when exactly at capacity, and leaves every other conversation's entries
unchanged. -/
theorem C2_eviction_ordered_stable (cfg : Config) (ms : MessageStore) (c : Int)
    (h : (getChat ms c).length > cfg.maxEntries) :
    evictionPost cfg ms c := by
  have hres : getChat (limitChatEntries cfg ms c) c
      = (sortByTsDesc (getChat ms c)).take cfg.maxEntries := by
    simp only [limitChatEntries, if_pos h]
    exact getChat_aset_self _ _ _
  have hlen : (sortByTsDesc (getChat ms c)).length = (getChat ms c).length :=
    (sortByTsDesc_perm (getChat ms c)).length_eq
  refine ⟨hres, ?_, ?_, ?_, ?_⟩
  · rw [hres, List.length_take]
    omega
  · have hpw := sortByTsDesc_pairwise (getChat ms c)
    rw [← List.take_append_drop cfg.maxEntries (sortByTsDesc (getChat ms c))] at hpw
    rcases List.pairwise_append.mp hpw with ⟨-, -, hx⟩
    exact fun e he k hk => hx k hk e he
  · intro t
    rw [← List.filter_append, List.take_append_drop]
    exact sortByTsDesc_filter _ t
  · intro c' hc
    simp only [limitChatEntries, if_pos h]
    exact getChat_aset_of_ne _ _ _ _ hc

/-- A minimal record used by concrete examples. -/
def recW (t : Int) : Record :=
  { timestamp := t, message_id := 0, mtype := some "text", forwarded := false,
    user_id := 0, size := none }

def cfgCap1 : Config := { maxEntries := 1, expiryDays := none, maxErrors := 10 }

def msPair : MessageStore := [(1, [(str2cp "a", recW 5), (str2cp "b", recW 7)])]

theorem C2_eviction_ordered_stable_witness : evictionPost cfgCap1 msPair 1 :=
  C2_eviction_ordered_stable cfgCap1 msPair 1 (by decide)

def cfgCap2 : Config := { maxEntries := 2, expiryDays := none, maxErrors := 10 }

def msTie : MessageStore :=
  [(1, [(str2cp "a", recW 5), (str2cp "b", recW 5), (str2cp "c", recW 7)])]

/-- C2 counterexample: with capacity 2 and entries inserted in the order
a (timestamp 5), b (timestamp 5), c (timestamp 7), eviction keeps the
EARLIER-inserted tied entry "a" and evicts the later-inserted "b",
contradicting the claim that ties are broken by evicting the
earlier-inserted entry first. -/
theorem C2_tiebreak_counterexample :
    alookup (getChat (limitChatEntries cfgCap2 msTie 1) 1) (str2cp "a") = some (recW 5)
    ∧ alookup (getChat (limitChatEntries cfgCap2 msTie 1) 1) (str2cp "b") = none := by
  decide

end DeDuperBot

namespace DeDuperBot

/-! ## Claim C4: repeated failures auto-deactivate (but do not clear) -/

theorem dupErrorBranch_store (cfg : Config) (s : BotState) (c : Int) (k : ErrKind) (now : Int) :
    (dupErrorBranch cfg s c k now).message_store = s.message_store := by
  simp only [dupErrorBranch]
  split_ifs <;> rfl

theorem dupErrorBranch_err_self (cfg : Config) (s : BotState) (c : Int) (k : ErrKind) (now : Int) :
    getErr (dupErrorBranch cfg s c k now) c = getErr s c + 1 := by
  simp only [dupErrorBranch]
  split_ifs <;> simp [getErr, alookup_aset_self]

theorem dupErrorBranch_active_of_exceed (cfg : Config) (s : BotState) (c : Int) (k : ErrKind)
    (now : Int) (h : getErr s c + 1 > cfg.maxErrors) :
    getActive (dupErrorBranch cfg s c k now) c = false := by
  simp only [dupErrorBranch, if_pos h]
  split_ifs <;> simp [getActive, alookup_aset_self]

theorem iterFail_store (cfg : Config) (c : Int) (k : ErrKind) (now : Int) (n : Nat)
    (s : BotState) : (iterFail cfg c k now n s).message_store = s.message_store := by
  induction n with
  | zero => rfl
  | succ n ih => rw [iterFail, dupErrorBranch_store, ih]

theorem iterFail_err (cfg : Config) (c : Int) (k : ErrKind) (now : Int) (n : Nat)
    (s : BotState) : getErr (iterFail cfg c k now n s) c = getErr s c + n := by
  induction n with
  | zero => rfl
  | succ n ih =>
    rw [iterFail, dupErrorBranch_err_self, ih]
    omega

/-- C4 (amended): after the duplicate-path delete-failure handler has
run enough times for the per-conversation error counter to exceed the
configured threshold (threshold + 1 runs from a zero counter), the
conversation is auto-deactivated — but its deduplication store is NOT
cleared: the message store is exactly what it was before the failures. -/
theorem C4_failures_deactivate_without_clearing (cfg : Config) (s : BotState) (c : Int)
    (k : ErrKind) (now : Int) (h0 : getErr s c = 0) :
    getActive (iterFail cfg c k now (cfg.maxErrors + 1) s) c = false
    ∧ (iterFail cfg c k now (cfg.maxErrors + 1) s).message_store = s.message_store := by
  constructor
  · rw [iterFail]
    apply dupErrorBranch_active_of_exceed
    rw [iterFail_err, h0]
    omega
  · exact iterFail_store cfg c k now (cfg.maxErrors + 1) s

/-- All-zero statistics, the state right after `__init__`. -/
def statsZero : Stats :=
  { messages_processed := 0, duplicates_deleted := 0, active_chats_count := 0,
    avg_response_time := 0, total_memory_usage := 0, largest_chat_size := 0,
    content_types_processed := ⟨0, 0, 0, 0, 0, 0, 0, 0⟩,
    forwarded_duplicates := 0, original_duplicates := 0 }

def sC4 : BotState :=
  { message_store := [(7, [(str2cp "h", recW 3)])], active_chats := [(7, true)],
    auto_activated_channels := [], rate_limit_tracker := [], error_tracker := [],
    stats := statsZero }

def cfgE2 : Config := { maxEntries := 10000, expiryDays := none, maxErrors := 2 }

theorem C4_failures_deactivate_without_clearing_witness :
    getActive (iterFail cfgE2 7 ErrKind.other 0 (cfgE2.maxErrors + 1) sC4) 7 = false
    ∧ (iterFail cfgE2 7 ErrKind.other 0 (cfgE2.maxErrors + 1) sC4).message_store
        = sC4.message_store :=
  C4_failures_deactivate_without_clearing cfgE2 sC4 7 ErrKind.other 0 (by decide)

/-- C4 counterexample: with the default threshold 10, eleven consecutive
delete failures on conversation 7 leave it inactive as the claim says,
but its deduplication store still holds its entry — size is 1, not 0. -/
theorem C4_store_not_cleared_counterexample :
    getActive (iterFail defaultConfig 7 ErrKind.other 0 11 sC4) 7 = false
    ∧ (getChat (iterFail defaultConfig 7 ErrKind.other 0 11 sC4).message_store 7).length = 1 := by
  decide

/-! ## Claim C6: the sweep is a no-op with TTL disabled -/

/-- C6: when the age-expiry TTL is disabled (the default), running the
sweep changes nothing: the state is unchanged, so every conversation's
entry set and size are identical before and after the sweep, regardless
of entry ages. -/
theorem C6_sweep_noop_when_ttl_disabled (cfg : Config) (now : Int) (s : BotState)
    (h : cfg.expiryDays = none) :
    runSweep cfg now s = s
    ∧ ∀ c : Int, getChat (runSweep cfg now s).message_store c = getChat s.message_store c := by
  have hcl : cleanupExpired cfg now s.message_store = s.message_store := by
    unfold cleanupExpired
    rw [h]
  constructor
  · unfold runSweep
    rw [hcl]
  · intro c
    unfold runSweep
    rw [hcl]

theorem C6_sweep_noop_when_ttl_disabled_witness :
    runSweep defaultConfig 1000000 sC4 = sC4
    ∧ ∀ c : Int, getChat (runSweep defaultConfig 1000000 sC4).message_store c
        = getChat sC4.message_store c :=
  C6_sweep_noop_when_ttl_disabled defaultConfig 1000000 sC4 rfl

/-! ## Claim C7: the derived aggregates -/

/-- C7 (amended): the derived aggregates are recomputed only on the
new-insert path.  After a new-record insert that stays within capacity,
total stored entries equals the sum of all conversation sizes and the
largest-chat aggregate equals the running maximum of its old value and
the inserting conversation's new size; the clear performed by the stop
command and the periodic sweep leave both aggregates unchanged, so they
can go stale. -/
theorem C7_aggregates_only_on_insert (cfg : Config) (s : BotState) (c : Int)
    (fp : Str) (rec : Record) (now : Int)
    (h : (aset (getChat s.message_store c) fp rec).length ≤ cfg.maxEntries) :
    ((newMessageBranch cfg s c fp rec).stats.total_memory_usage
        = sumSizes (newMessageBranch cfg s c fp rec).message_store
      ∧ (newMessageBranch cfg s c fp rec).stats.largest_chat_size
        = max s.stats.largest_chat_size
            (getChat (newMessageBranch cfg s c fp rec).message_store c).length)
    ∧ ((stopBot s c).stats.total_memory_usage = s.stats.total_memory_usage
      ∧ (stopBot s c).stats.largest_chat_size = s.stats.largest_chat_size)
    ∧ (runSweep cfg now s).stats = s.stats := by
  have hlim : limitChatEntries cfg
      (aset s.message_store c (aset (getChat s.message_store c) fp rec)) c
      = aset s.message_store c (aset (getChat s.message_store c) fp rec) := by
    simp only [limitChatEntries, getChat_aset_self]
    rw [if_neg (by omega)]
  refine ⟨⟨?_, ?_⟩, ⟨rfl, rfl⟩, rfl⟩
  · simp only [newMessageBranch, hlim]
  · simp only [newMessageBranch, hlim, getChat_aset_self]
    split_ifs <;> omega

theorem C7_aggregates_only_on_insert_witness :
    ((newMessageBranch defaultConfig sC4 7 (str2cp "g") (recW 9)).stats.total_memory_usage
        = sumSizes (newMessageBranch defaultConfig sC4 7 (str2cp "g") (recW 9)).message_store
      ∧ (newMessageBranch defaultConfig sC4 7 (str2cp "g") (recW 9)).stats.largest_chat_size
        = max sC4.stats.largest_chat_size
            (getChat (newMessageBranch defaultConfig sC4 7 (str2cp "g") (recW 9)).message_store 7).length)
    ∧ ((stopBot sC4 7).stats.total_memory_usage = sC4.stats.total_memory_usage
      ∧ (stopBot sC4 7).stats.largest_chat_size = sC4.stats.largest_chat_size)
    ∧ (runSweep defaultConfig 0 sC4).stats = sC4.stats :=
  C7_aggregates_only_on_insert defaultConfig sC4 7 (str2cp "g") (recW 9) 0 (by decide)

def sC7 : BotState :=
  { message_store := [(5, [(str2cp "h", recW 3)])], active_chats := [(5, true)],
    auto_activated_channels := [], rate_limit_tracker := [], error_tracker := [],
    stats := { statsZero with total_memory_usage := 1, largest_chat_size := 1 } }

/-- C7 counterexample: starting from a state whose aggregates are
accurate, the stop command clears conversation 5's store (a store
mutation), after which the stored aggregate total still reads 1 while
the actual sum of all conversation sizes is 0. -/
theorem C7_stale_after_clear_counterexample :
    (stopBot sC7 5).stats.total_memory_usage = 1
    ∧ sumSizes (stopBot sC7 5).message_store = 0 := by
  decide

end DeDuperBot

namespace DeDuperBot

/-! ## Claim C5: the returned content kind -/

/-- The kind `generate_message_hash` actually computes: the LAST present
media kind in source check order (photo, document, video, audio, voice,
video_note, sticker, animation), falling back to "text" when text is
present, and to none otherwise — in particular for caption-only content. -/
def lastMediaKind (m : Message) : Option String :=
  if m.animation.isSome then some "animation"
  else if m.sticker.isSome then some "sticker"
  else if m.video_note.isSome then some "video_note"
  else if m.voice.isSome then some "voice"
  else if m.audio.isSome then some "audio"
  else if m.video.isSome then some "video"
  else if m.document.isSome then some "document"
  else if !m.photo.isEmpty then some "photo"
  else if optStrTruthy m.text then some "text"
  else none

set_option maxHeartbeats 1000000 in
theorem messageType_eq_lastMediaKind (m : Message) : messageType m = lastMediaKind m := by
  unfold messageType lastMediaKind
  cases m.animation <;> cases m.sticker <;> cases m.video_note <;> cases m.voice <;>
    cases m.audio <;> cases m.video <;> cases m.document <;> simp

/-- C5 (amended): for every content descriptor with at least one part,
the content kind returned alongside the fingerprint is the LAST
recognized media kind in the source check order (photo, document, video,
audio, voice, video_note, sticker, animation); it is "text" when text is
present and no media part is; and it is none — not "text" — when only a
caption is present. -/
theorem C5_kind_is_last_media_kind (m : Message)
    (h : (contentParts m).isEmpty = false) :
    (generateMessageHash m).2 = lastMediaKind m := by
  unfold generateMessageHash
  simp only [h, Bool.false_eq_true, if_false]
  exact messageType_eq_lastMediaKind m

def mCap : Message := { emptyMessage with caption := some (str2cp "hi") }

theorem C5_kind_is_last_media_kind_witness :
    (generateMessageHash mCap).2 = lastMediaKind mCap :=
  C5_kind_is_last_media_kind mCap (by decide)

/-- C5 counterexample: a caption-only descriptor has a part (a
fingerprint is produced) and only text/caption content, yet the returned
kind is none rather than "text": `message_type` is never set for
captions. -/
theorem C5_caption_only_counterexample :
    ((generateMessageHash mCap).1).isSome = true
    ∧ (generateMessageHash mCap).2 ≠ some "text" := by
  decide

end DeDuperBot

namespace DeDuperBot

/-! ## String lemmas for the fingerprint-invariance claim -/

theorem isWs_lower (n : Nat) : isWsCp (lowerCp n) = isWsCp n := by
  unfold lowerCp
  split_ifs with h
  · obtain ⟨h1, h2⟩ := h
    have ha : isWsCp (n + 32) = false := by
      unfold isWsCp
      simp only [Bool.or_eq_false_iff, decide_eq_false_iff_not]
      omega
    have hb : isWsCp n = false := by
      unfold isWsCp
      simp only [Bool.or_eq_false_iff, decide_eq_false_iff_not]
      omega
    rw [ha, hb]
  · rfl

theorem map_lower_dropWhile (s : Str) :
    (s.map lowerCp).dropWhile isWsCp = (s.dropWhile isWsCp).map lowerCp := by
  induction s with
  | nil => rfl
  | cons c cs ih =>
    simp only [List.map_cons, List.dropWhile_cons, isWs_lower]
    by_cases h : isWsCp c
    · simp [h, ih]
    · simp [h]

theorem dropTrailWs_cons (c : Nat) (s : Str) :
    dropTrailWs (c :: s) = match dropTrailWs s with
      | [] => if isWsCp c then [] else [c]
      | d :: t => c :: d :: t := rfl

theorem dropTrailWs_map_lower (s : Str) :
    dropTrailWs (s.map lowerCp) = (dropTrailWs s).map lowerCp := by
  induction s with
  | nil => rfl
  | cons c cs ih =>
    cases h : dropTrailWs cs with
    | nil =>
      have e1 : dropTrailWs (lowerCp c :: cs.map lowerCp)
          = if isWsCp (lowerCp c) then [] else [lowerCp c] := by
        rw [dropTrailWs_cons, ih, h, List.map_nil]
      have e2 : dropTrailWs (c :: cs) = if isWsCp c then [] else [c] := by
        rw [dropTrailWs_cons, h]
      rw [List.map_cons, e1, e2, isWs_lower]
      by_cases hc : isWsCp c
      · rw [if_pos hc, if_pos hc, List.map_nil]
      · rw [if_neg hc, if_neg hc]
        rfl
    | cons d t =>
      have e1 : dropTrailWs (lowerCp c :: cs.map lowerCp)
          = lowerCp c :: lowerCp d :: t.map lowerCp := by
        rw [dropTrailWs_cons, ih, h, List.map_cons]
      have e2 : dropTrailWs (c :: cs) = c :: d :: t := by
        rw [dropTrailWs_cons, h]
      rw [List.map_cons, e1, e2]
      rfl

/-- One-step unfolding of `pywords` on a singleton. -/
theorem pywords_cons₁ (c : Nat) :
    pywords [c] = if isWsCp c then [] else [[c]] := by
  by_cases h : isWsCp c <;> simp [pywords, h]

/-- One-step unfolding of `pywords` on a list of length at least two. -/
theorem pywords_cons₂ (c d : Nat) (t : Str) :
    pywords (c :: d :: t)
      = if isWsCp c then pywords (d :: t)
        else if isWsCp d then [c] :: pywords (d :: t)
        else (c :: (pywords (d :: t)).headD []) :: (pywords (d :: t)).tail := by
  by_cases hc : isWsCp c
  · simp only [pywords, if_pos hc]
  · by_cases hd : isWsCp d
    · simp only [pywords, if_neg hc, if_pos hd]
    · simp only [pywords, if_neg hc, if_neg hd]

theorem pywords_dropWhile (s : Str) : pywords (s.dropWhile isWsCp) = pywords s := by
  induction s with
  | nil => rfl
  | cons c cs ih =>
    by_cases h : isWsCp c
    · rw [List.dropWhile_cons, if_pos h, ih]
      cases cs with
      | nil =>
        rw [pywords_cons₁, if_pos h]
        rfl
      | cons d ds => rw [pywords_cons₂, if_pos h]
    · rw [List.dropWhile_cons, if_neg h]

theorem dropTrailWs_head (s : Str) (h : dropTrailWs s ≠ []) :
    (dropTrailWs s).head? = s.head? := by
  cases s with
  | nil => simp [dropTrailWs] at h
  | cons c cs =>
    cases hd : dropTrailWs cs with
    | nil =>
      have e1 : dropTrailWs (c :: cs) = if isWsCp c then [] else [c] := by
        rw [dropTrailWs_cons, hd]
      rw [e1] at h ⊢
      by_cases hc : isWsCp c
      · rw [if_pos hc] at h
        exact absurd rfl h
      · rw [if_neg hc]
        rfl
    | cons d t =>
      have e1 : dropTrailWs (c :: cs) = c :: d :: t := by
        rw [dropTrailWs_cons, hd]
      rw [e1]
      rfl

theorem pywords_cons_congr (c d : Nat) (t u : Str)
    (hp : pywords (d :: t) = pywords (d :: u)) :
    pywords (c :: d :: t) = pywords (c :: d :: u) := by
  rw [pywords_cons₂, pywords_cons₂, hp]

theorem pywords_dropTrailWs (s : Str) : pywords (dropTrailWs s) = pywords s := by
  induction s with
  | nil => rfl
  | cons c cs ih =>
    cases hd : dropTrailWs cs with
    | nil =>
      have hcs : pywords cs = [] := by rw [← ih, hd]; rfl
      have e1 : dropTrailWs (c :: cs) = if isWsCp c then [] else [c] := by
        rw [dropTrailWs_cons, hd]
      rw [e1]
      by_cases hc : isWsCp c
      · rw [if_pos hc]
        cases cs with
        | nil =>
          rw [pywords_cons₁, if_pos hc]
          rfl
        | cons d ds =>
          rw [pywords_cons₂, if_pos hc, hcs]
          rfl
      · rw [if_neg hc]
        cases cs with
        | nil => rfl
        | cons d ds =>
          rw [pywords_cons₁, if_neg hc, pywords_cons₂, if_neg hc, hcs]
          by_cases hdws : isWsCp d
          · rw [if_pos hdws]
          · rw [if_neg hdws]
            rfl
    | cons d t =>
      have hne : dropTrailWs cs ≠ [] := by rw [hd]; exact List.cons_ne_nil d t
      have hh : (dropTrailWs cs).head? = cs.head? := dropTrailWs_head cs hne
      have e1 : dropTrailWs (c :: cs) = c :: d :: t := by
        rw [dropTrailWs_cons, hd]
      rw [e1]
      cases cs with
      | nil => simp [dropTrailWs] at hd
      | cons e cs' =>
        have he : d = e := by
          rw [hd] at hh
          simpa using hh
        subst he
        have hp : pywords (d :: t) = pywords (d :: cs') := by
          rw [← hd]
          exact ih
        exact pywords_cons_congr c d t cs' hp

theorem pywords_lower_trim (s : Str) :
    pywords (pylower (pytrim s)) = pywords (pylower s) := by
  unfold pytrim pylower dropLeadWs
  rw [← dropTrailWs_map_lower, ← map_lower_dropWhile, pywords_dropTrailWs, pywords_dropWhile]

theorem normalizeStr_canon (s : Str) : normalizeStr s = joinSpace (canonWords s) := by
  unfold normalizeStr canonWords
  rw [pywords_lower_trim]

end DeDuperBot

namespace DeDuperBot

/-! ## Lemmas about the largest-photo selection -/

theorem pickLargest_cons (h q : PhotoSize) (t : List PhotoSize) :
    pickLargest h (q :: t) = pickLargest (if photoKey q > photoKey h then q else h) t := rfl

theorem pickLargest_mem (h : PhotoSize) (t : List PhotoSize) : pickLargest h t ∈ h :: t := by
  induction t generalizing h with
  | nil => simp [pickLargest]
  | cons q t ih =>
    rw [pickLargest_cons]
    rcases List.mem_cons.mp (ih (if photoKey q > photoKey h then q else h)) with h1 | h1
    · rw [h1]
      by_cases hq : photoKey q > photoKey h
      · simp [hq]
      · simp [hq]
    · simp [List.mem_cons, h1]

theorem pickLargest_le (h : PhotoSize) (t : List PhotoSize) :
    ∀ x ∈ h :: t, photoKey x ≤ photoKey (pickLargest h t) := by
  induction t generalizing h with
  | nil =>
    intro x hx
    rw [List.mem_singleton.mp hx]
    exact le_refl _
  | cons q t ih =>
    intro x hx
    rw [pickLargest_cons]
    have hbb : photoKey h ≤ photoKey (if photoKey q > photoKey h then q else h)
        ∧ photoKey q ≤ photoKey (if photoKey q > photoKey h then q else h) := by
      split_ifs with hq
      · exact ⟨le_of_lt hq, le_refl _⟩
      · exact ⟨le_refl _, le_of_not_lt hq⟩
    have hbpick := ih (if photoKey q > photoKey h then q else h)
      (if photoKey q > photoKey h then q else h) (List.mem_cons_self _ _)
    rcases List.mem_cons.mp hx with h1 | h1
    · rw [h1]
      exact le_trans hbb.1 hbpick
    · rcases List.mem_cons.mp h1 with h2 | h2
      · rw [h2]
        exact le_trans hbb.2 hbpick
      · exact ih (if photoKey q > photoKey h then q else h) x (List.mem_cons_of_mem _ h2)

/-- When the size keys are pairwise distinct, the largest-photo
selection is invariant under reordering the photo list. -/
theorem pickLargest_perm (h₁ : PhotoSize) (t₁ : List PhotoSize) (h₂ : PhotoSize)
    (t₂ : List PhotoSize) (hp : (h₁ :: t₁).Perm (h₂ :: t₂))
    (hnd : ((h₁ :: t₁).map photoKey).Nodup) :
    pickLargest h₁ t₁ = pickLargest h₂ t₂ := by
  have m1 : pickLargest h₁ t₁ ∈ h₁ :: t₁ := pickLargest_mem h₁ t₁
  have m2 : pickLargest h₂ t₂ ∈ h₁ :: t₁ := hp.mem_iff.mpr (pickLargest_mem h₂ t₂)
  have le1 : photoKey (pickLargest h₂ t₂) ≤ photoKey (pickLargest h₁ t₁) :=
    pickLargest_le h₁ t₁ _ m2
  have le2 : photoKey (pickLargest h₁ t₁) ≤ photoKey (pickLargest h₂ t₂) :=
    pickLargest_le h₂ t₂ _ (hp.mem_iff.mp m1)
  exact List.inj_on_of_nodup_map hnd m1 m2 (le_antisymm le2 le1)

/-! ## Claim C3: fingerprint invariance -/

/-- C3 (amended): two descriptors whose text and caption agree up to
letter case and whitespace runs (same truthiness and the same
case-folded word sequences), whose photo lists are reorderings of one
another with pairwise-distinct size keys, and which agree on every other
content field, receive identical fingerprints.  (With tied photo size
keys the fingerprint can depend on the photo order, because the
largest-photo selection keeps the first-listed maximum — see the
counterexample.) -/
theorem C3_fingerprint_invariance (m₁ m₂ : Message)
    (htt : optStrTruthy m₁.text = optStrTruthy m₂.text)
    (htw : canonWords (m₁.text.getD []) = canonWords (m₂.text.getD []))
    (hct : optStrTruthy m₁.caption = optStrTruthy m₂.caption)
    (hcw : canonWords (m₁.caption.getD []) = canonWords (m₂.caption.getD []))
    (hph : m₁.photo.Perm m₂.photo)
    (hnd : (m₁.photo.map photoKey).Nodup)
    (hdoc : m₁.document = m₂.document) (hvid : m₁.video = m₂.video)
    (haud : m₁.audio = m₂.audio) (hvoi : m₁.voice = m₂.voice)
    (hvn : m₁.video_note = m₂.video_note) (hsti : m₁.sticker = m₂.sticker)
    (hani : m₁.animation = m₂.animation) :
    (generateMessageHash m₁).1 = (generateMessageHash m₂).1 := by
  have h1 : textPart m₁ = textPart m₂ := by
    unfold textPart
    rw [htt]
    by_cases h : optStrTruthy m₂.text
    · rw [if_pos h, if_pos h, normalizeStr_canon, normalizeStr_canon, htw]
    · rw [if_neg h, if_neg h]
  have h2 : captionPart m₁ = captionPart m₂ := by
    unfold captionPart
    rw [hct]
    by_cases h : optStrTruthy m₂.caption
    · rw [if_pos h, if_pos h, normalizeStr_canon, normalizeStr_canon, hcw]
    · rw [if_neg h, if_neg h]
  have h3 : photoParts m₁ = photoParts m₂ := by
    unfold photoParts
    cases hp1 : m₁.photo with
    | nil =>
      have hp2 : m₂.photo = [] := by
        rw [hp1] at hph
        exact (hph.symm.eq_nil)
      rw [hp2]
    | cons p ps =>
      cases hp2 : m₂.photo with
      | nil =>
        rw [hp1, hp2] at hph
        exact absurd hph.eq_nil (List.cons_ne_nil p ps)
      | cons q qs =>
        have hpick : pickLargest p ps = pickLargest q qs := by
          apply pickLargest_perm
          · rw [← hp1, ← hp2]
            exact hph
          · rw [← hp1]
            exact hnd
        simp only [hpick]
  have h4 : documentParts m₁ = documentParts m₂ := by
    unfold documentParts
    rw [hdoc]
  have h5 : videoParts m₁ = videoParts m₂ := by
    unfold videoParts
    rw [hvid]
  have h6 : audioParts m₁ = audioParts m₂ := by
    unfold audioParts
    rw [haud]
  have h7 : voiceParts m₁ = voiceParts m₂ := by
    unfold voiceParts
    rw [hvoi]
  have h8 : videoNoteParts m₁ = videoNoteParts m₂ := by
    unfold videoNoteParts
    rw [hvn]
  have h9 : stickerParts m₁ = stickerParts m₂ := by
    unfold stickerParts
    rw [hsti]
  have h10 : animationParts m₁ = animationParts m₂ := by
    unfold animationParts
    rw [hani]
  have hparts : contentParts m₁ = contentParts m₂ := by
    unfold contentParts
    rw [h1, h2, h3, h4, h5, h6, h7, h8, h9, h10]
  unfold generateMessageHash
  rw [hparts]
  by_cases he : (contentParts m₂).isEmpty
  · simp [he]
  · simp [he]

def phSmall : PhotoSize := { file_unique_id := str2cp "a", file_size := some 10 }

def phBig : PhotoSize := { file_unique_id := str2cp "b", file_size := some 20 }

def mInv1 : Message :=
  { emptyMessage with text := some (str2cp "Hello  WORLD"), photo := [phSmall, phBig] }

def mInv2 : Message :=
  { emptyMessage with text := some (str2cp "hello world"), photo := [phBig, phSmall] }

theorem C3_fingerprint_invariance_witness :
    (generateMessageHash mInv1).1 = (generateMessageHash mInv2).1 :=
  C3_fingerprint_invariance mInv1 mInv2 (by decide) (by decide) (by decide) (by decide)
    (List.Perm.swap phBig phSmall []) (by decide) rfl rfl rfl rfl rfl rfl rfl

def phTieA : PhotoSize := { file_unique_id := str2cp "a", file_size := none }

def phTieB : PhotoSize := { file_unique_id := str2cp "b", file_size := none }

def mTie1 : Message := { emptyMessage with photo := [phTieA, phTieB] }

def mTie2 : Message := { emptyMessage with photo := [phTieB, phTieA] }

/-- C3 counterexample: the two descriptors carry the same two photo
references — identical semantic content differing only in the ordering
of the parts — and are otherwise identical, yet their fingerprints
differ: with tied size keys the largest-photo selection takes whichever
photo is listed first. -/
theorem C3_photo_order_counterexample :
    mTie1.photo.Perm mTie2.photo
    ∧ mTie1.text = mTie2.text
    ∧ mTie1.caption = mTie2.caption
    ∧ (generateMessageHash mTie1).1 ≠ (generateMessageHash mTie2).1 :=
  ⟨List.Perm.swap phTieB phTieA [], rfl, rfl, by decide⟩

end DeDuperBot

namespace DeDuperBot

/-! ## Lemmas about the timestamp refresh and the error branch -/

theorem touchTimestamp_length (chat : ChatStore) (fp : Str) (now : Int) :
    (touchTimestamp chat fp now).length = chat.length := by
  simp [touchTimestamp]

theorem touchTimestamp_cons (k : Str) (v : Record) (rest : ChatStore) (fp : Str) (now : Int) :
    touchTimestamp ((k, v) :: rest) fp now
      = (if k = fp then (k, { v with timestamp := now }) else (k, v))
          :: touchTimestamp rest fp now := by
  unfold touchTimestamp
  rw [List.map_cons]

theorem alookup_touchTimestamp_self (chat : ChatStore) (fp : Str) (now : Int) (r : Record)
    (h : alookup chat fp = some r) :
    alookup (touchTimestamp chat fp now) fp = some { r with timestamp := now } := by
  induction chat with
  | nil => simp [alookup] at h
  | cons e rest ih =>
    obtain ⟨k, v⟩ := e
    rw [touchTimestamp_cons]
    by_cases hk : k = fp
    · subst hk
      rw [alookup, if_pos rfl] at h
      obtain rfl : v = r := Option.some.inj h
      rw [if_pos rfl, alookup, if_pos rfl]
    · rw [alookup, if_neg hk] at h
      rw [if_neg hk, alookup, if_neg hk]
      exact ih h

theorem alookup_touchTimestamp_ne (chat : ChatStore) (fp fp' : Str) (now : Int)
    (h : fp' ≠ fp) :
    alookup (touchTimestamp chat fp now) fp' = alookup chat fp' := by
  induction chat with
  | nil => rfl
  | cons e rest ih =>
    obtain ⟨k, v⟩ := e
    rw [touchTimestamp_cons]
    by_cases hk : k = fp
    · subst hk
      have hk' : ¬ k = fp' := fun hh => h hh.symm
      rw [if_pos rfl]
      simp only [alookup]
      rw [if_neg hk', if_neg hk']
      exact ih
    · rw [if_neg hk]
      by_cases hk' : k = fp'
      · simp only [alookup]
        rw [if_pos hk', if_pos hk']
      · simp only [alookup]
        rw [if_neg hk', if_neg hk']
        exact ih

theorem getActive_mod_stats (s : BotState) (st : Stats) (c : Int) :
    getActive { s with stats := st } c = getActive s c := rfl

theorem getErr_mod_stats (s : BotState) (st : Stats) (c : Int) :
    getErr { s with stats := st } c = getErr s c := rfl

theorem dupErrorBranch_stats (cfg : Config) (s : BotState) (c : Int) (k : ErrKind)
    (now : Int) : (dupErrorBranch cfg s c k now).stats = s.stats := by
  simp only [dupErrorBranch]
  split_ifs <;> rfl

theorem dupErrorBranch_auto (cfg : Config) (s : BotState) (c : Int) (k : ErrKind)
    (now : Int) :
    (dupErrorBranch cfg s c k now).auto_activated_channels = s.auto_activated_channels := by
  simp only [dupErrorBranch]
  split_ifs <;> rfl

theorem dupErrorBranch_rate (cfg : Config) (s : BotState) (c : Int) (k : ErrKind)
    (now : Int) :
    (dupErrorBranch cfg s c k now).rate_limit_tracker
      = if k = ErrKind.rateLimited
        then aset s.rate_limit_tracker c (getRate s c ++ [now])
        else s.rate_limit_tracker := by
  simp only [dupErrorBranch, getRate]
  split_ifs <;> rfl

theorem dupErrorBranch_active_iff (cfg : Config) (s : BotState) (c : Int) (k : ErrKind)
    (now : Int) :
    getActive (dupErrorBranch cfg s c k now) c
      = if getErr s c + 1 > cfg.maxErrors then false else getActive s c := by
  simp only [dupErrorBranch]
  split_ifs <;> simp [getActive, alookup_aset_self]

theorem dupErrorBranch_err_ne (cfg : Config) (s : BotState) (c c' : Int) (k : ErrKind)
    (now : Int) (h : c' ≠ c) :
    alookup (dupErrorBranch cfg s c k now).error_tracker c' = alookup s.error_tracker c' := by
  simp only [dupErrorBranch]
  split_ifs <;> simp [alookup_aset_of_ne _ _ _ _ h]

/-! ## Claim C8: the touch on a repeat sighting -/

/-- C8: a repeat sighting whose delete succeeds updates only the stored
record's timestamp: the conversation's entry count, the record's message
identifier, content kind, forwarded flag, author identifier and size,
and every other conversation's entries are unchanged, and the
processed-as-new aggregates (total stored entries, largest chat size)
are not incremented. -/
theorem C8_touch_updates_only_timestamp (cfg : Config) (s : BotState) (c : Int) (m : Message)
    (uid : Nat) (now : Int) (sample : ℚ) (fp : Str) (mt : Option String) (r : Record)
    (hact : getActive s c = true)
    (hcmd : (optStrTruthy m.text && isCommandText m.text) = false)
    (hhash : generateMessageHash m = (some fp, mt))
    (hdup : alookup (getChat s.message_store c) fp = some r) :
    (getChat (handleMessage cfg s c m false uid now DeleteOutcome.ok sample).message_store c).length
        = (getChat s.message_store c).length
    ∧ alookup (getChat (handleMessage cfg s c m false uid now DeleteOutcome.ok sample).message_store c) fp
        = some { r with timestamp := now }
    ∧ (∀ fp' : Str, fp' ≠ fp →
        alookup (getChat (handleMessage cfg s c m false uid now DeleteOutcome.ok sample).message_store c) fp'
          = alookup (getChat s.message_store c) fp')
    ∧ (∀ c' : Int, c' ≠ c →
        getChat (handleMessage cfg s c m false uid now DeleteOutcome.ok sample).message_store c'
          = getChat s.message_store c')
    ∧ (handleMessage cfg s c m false uid now DeleteOutcome.ok sample).stats.total_memory_usage
        = s.stats.total_memory_usage
    ∧ (handleMessage cfg s c m false uid now DeleteOutcome.ok sample).stats.largest_chat_size
        = s.stats.largest_chat_size := by
  have hsome : (alookup (getChat s.message_store c) fp).isSome = true := by
    rw [hdup]; rfl
  have hms : (handleMessage cfg s c m false uid now DeleteOutcome.ok sample).message_store
      = aset s.message_store c (touchTimestamp (getChat s.message_store c) fp now) := by
    by_cases hf : m.forward_origin_present <;>
      simp [handleMessage, hact, hcmd, hhash, hsome, hf, dupOkBranch, getActive_mod_stats]
  refine ⟨?_, ?_, ?_, ?_, ?_, ?_⟩
  · rw [hms, getChat_aset_self, touchTimestamp_length]
  · rw [hms, getChat_aset_self]
    exact alookup_touchTimestamp_self _ _ _ _ hdup
  · intro fp' hne
    rw [hms, getChat_aset_self]
    exact alookup_touchTimestamp_ne _ _ _ _ hne
  · intro c' hne
    rw [hms]
    exact getChat_aset_of_ne _ _ _ _ hne
  · by_cases hf : m.forward_origin_present <;>
      simp [handleMessage, hact, hcmd, hhash, hsome, hf, dupOkBranch, getActive_mod_stats]
  · by_cases hf : m.forward_origin_present <;>
      simp [handleMessage, hact, hcmd, hhash, hsome, hf, dupOkBranch, getActive_mod_stats]

/-! ## Claim C9: the response-time estimate rule -/

/-- C9: whenever `handle_message` fully processes a message (active
chat, human sender, hashable content), the response-time estimate is
updated by exactly the rule: it becomes the sample when the current
estimate is 0, and otherwise the average of the current estimate and the
sample — not a true running mean. -/
theorem C9_response_time_rule (cfg : Config) (s : BotState) (c : Int) (m : Message)
    (uid : Nat) (now : Int) (outcome : DeleteOutcome) (sample : ℚ)
    (fp : Str) (mt : Option String)
    (hact : getActive s c = true)
    (hcmd : (optStrTruthy m.text && isCommandText m.text) = false)
    (hhash : generateMessageHash m = (some fp, mt)) :
    (handleMessage cfg s c m false uid now outcome sample).stats.avg_response_time
      = if s.stats.avg_response_time = 0 then sample
        else (s.stats.avg_response_time + sample) / 2 := by
  by_cases hdup : (alookup (getChat s.message_store c) fp).isSome
  · cases outcome with
    | ok =>
      by_cases hf : m.forward_origin_present <;>
        simp [handleMessage, hact, hcmd, hhash, hdup, hf, dupOkBranch, getActive_mod_stats]
    | err k =>
      simp [handleMessage, hact, hcmd, hhash, hdup, dupErrorBranch_stats, getActive_mod_stats]
  · simp [handleMessage, hact, hcmd, hhash, hdup, newMessageBranch, getActive_mod_stats]

/-! ## Claim C10: the delete-failure frame -/

/-- C10 (amended): when a duplicate is detected but the external delete
fails, the store and all duplicate statistics are unchanged and the
record's timestamp is not refreshed; on the error path the
per-conversation error counter increments, the rate-limit tracker is
appended to for rate-limited failures, auto-deactivation triggers once
the counter exceeds the threshold, and the always-updated processing
counter advances as for every message. -/
theorem C10_delete_failure_frame (cfg : Config) (s : BotState) (c : Int) (m : Message)
    (uid : Nat) (now : Int) (sample : ℚ) (fp : Str) (mt : Option String) (r : Record)
    (k : ErrKind)
    (hact : getActive s c = true)
    (hcmd : (optStrTruthy m.text && isCommandText m.text) = false)
    (hhash : generateMessageHash m = (some fp, mt))
    (hdup : alookup (getChat s.message_store c) fp = some r) :
    (handleMessage cfg s c m false uid now (DeleteOutcome.err k) sample).message_store
        = s.message_store
    ∧ alookup (getChat (handleMessage cfg s c m false uid now (DeleteOutcome.err k) sample).message_store c) fp
        = some r
    ∧ (handleMessage cfg s c m false uid now (DeleteOutcome.err k) sample).stats.duplicates_deleted
        = s.stats.duplicates_deleted
    ∧ (handleMessage cfg s c m false uid now (DeleteOutcome.err k) sample).stats.forwarded_duplicates
        = s.stats.forwarded_duplicates
    ∧ (handleMessage cfg s c m false uid now (DeleteOutcome.err k) sample).stats.original_duplicates
        = s.stats.original_duplicates
    ∧ getErr (handleMessage cfg s c m false uid now (DeleteOutcome.err k) sample) c
        = getErr s c + 1
    ∧ (∀ c' : Int, c' ≠ c →
        alookup (handleMessage cfg s c m false uid now (DeleteOutcome.err k) sample).error_tracker c'
          = alookup s.error_tracker c')
    ∧ (handleMessage cfg s c m false uid now (DeleteOutcome.err k) sample).rate_limit_tracker
        = (if k = ErrKind.rateLimited
           then aset s.rate_limit_tracker c (getRate s c ++ [now])
           else s.rate_limit_tracker)
    ∧ getActive (handleMessage cfg s c m false uid now (DeleteOutcome.err k) sample) c
        = (if getErr s c + 1 > cfg.maxErrors then false else true)
    ∧ (handleMessage cfg s c m false uid now (DeleteOutcome.err k) sample).auto_activated_channels
        = s.auto_activated_channels
    ∧ (handleMessage cfg s c m false uid now (DeleteOutcome.err k) sample).stats.messages_processed
        = s.stats.messages_processed + 1 := by
  have hsome : (alookup (getChat s.message_store c) fp).isSome = true := by
    rw [hdup]; rfl
  have hms : (handleMessage cfg s c m false uid now (DeleteOutcome.err k) sample).message_store
      = s.message_store := by
    simp [handleMessage, hact, hcmd, hhash, hsome, dupErrorBranch_store, getActive_mod_stats]
  refine ⟨hms, ?_, ?_, ?_, ?_, ?_, ?_, ?_, ?_, ?_, ?_⟩
  · rw [hms]
    exact hdup
  · simp [handleMessage, hact, hcmd, hhash, hsome, dupErrorBranch_stats, getActive_mod_stats]
  · simp [handleMessage, hact, hcmd, hhash, hsome, dupErrorBranch_stats, getActive_mod_stats]
  · simp [handleMessage, hact, hcmd, hhash, hsome, dupErrorBranch_stats, getActive_mod_stats]
  · simp [handleMessage, hact, hcmd, hhash, hsome, dupErrorBranch_err_self,
      getActive_mod_stats, getErr_mod_stats]
  · intro c' hne
    simp [handleMessage, hact, hcmd, hhash, hsome, getActive_mod_stats,
      dupErrorBranch_err_ne _ _ _ _ _ _ hne]
  · simp [handleMessage, hact, hcmd, hhash, hsome, dupErrorBranch_rate, getRate,
      getActive_mod_stats]
  · simp [handleMessage, hact, hcmd, hhash, hsome, getActive_mod_stats, getErr_mod_stats,
      dupErrorBranch_active_iff, hact]
  · simp [handleMessage, hact, hcmd, hhash, hsome, dupErrorBranch_auto, getActive_mod_stats]
  · simp [handleMessage, hact, hcmd, hhash, hsome, dupErrorBranch_stats, getActive_mod_stats]

end DeDuperBot

namespace DeDuperBot

/-! ## Concrete runs of `handle_message` -/

def sDup : BotState :=
  { message_store := [(7, [(str2cp "text:hi", recW 3)])], active_chats := [(7, true)],
    auto_activated_channels := [], rate_limit_tracker := [], error_tracker := [],
    stats := statsZero }

def mHi : Message := { emptyMessage with text := some (str2cp "HI"), message_id := 9 }

theorem C8_touch_updates_only_timestamp_witness :
    (getChat (handleMessage defaultConfig sDup 7 mHi false 5 100 DeleteOutcome.ok 2).message_store 7).length
        = (getChat sDup.message_store 7).length
    ∧ alookup (getChat (handleMessage defaultConfig sDup 7 mHi false 5 100 DeleteOutcome.ok 2).message_store 7) (str2cp "text:hi")
        = some { recW 3 with timestamp := 100 }
    ∧ (∀ fp' : Str, fp' ≠ str2cp "text:hi" →
        alookup (getChat (handleMessage defaultConfig sDup 7 mHi false 5 100 DeleteOutcome.ok 2).message_store 7) fp'
          = alookup (getChat sDup.message_store 7) fp')
    ∧ (∀ c' : Int, c' ≠ 7 →
        getChat (handleMessage defaultConfig sDup 7 mHi false 5 100 DeleteOutcome.ok 2).message_store c'
          = getChat sDup.message_store c')
    ∧ (handleMessage defaultConfig sDup 7 mHi false 5 100 DeleteOutcome.ok 2).stats.total_memory_usage
        = sDup.stats.total_memory_usage
    ∧ (handleMessage defaultConfig sDup 7 mHi false 5 100 DeleteOutcome.ok 2).stats.largest_chat_size
        = sDup.stats.largest_chat_size :=
  C8_touch_updates_only_timestamp defaultConfig sDup 7 mHi 5 100 2 (str2cp "text:hi")
    (some "text") (recW 3) (by decide) (by decide) (by decide) (by decide)

theorem C9_response_time_rule_witness :
    (handleMessage defaultConfig sDup 7 mHi false 5 100 DeleteOutcome.ok 2).stats.avg_response_time
      = if sDup.stats.avg_response_time = 0 then 2
        else (sDup.stats.avg_response_time + 2) / 2 :=
  C9_response_time_rule defaultConfig sDup 7 mHi 5 100 DeleteOutcome.ok 2 (str2cp "text:hi")
    (some "text") (by decide) (by decide) (by decide)

theorem C10_delete_failure_frame_witness :
    (handleMessage defaultConfig sDup 7 mHi false 5 100 (DeleteOutcome.err ErrKind.other) 2).message_store
        = sDup.message_store
    ∧ alookup (getChat (handleMessage defaultConfig sDup 7 mHi false 5 100 (DeleteOutcome.err ErrKind.other) 2).message_store 7) (str2cp "text:hi")
        = some (recW 3)
    ∧ (handleMessage defaultConfig sDup 7 mHi false 5 100 (DeleteOutcome.err ErrKind.other) 2).stats.duplicates_deleted
        = sDup.stats.duplicates_deleted
    ∧ (handleMessage defaultConfig sDup 7 mHi false 5 100 (DeleteOutcome.err ErrKind.other) 2).stats.forwarded_duplicates
        = sDup.stats.forwarded_duplicates
    ∧ (handleMessage defaultConfig sDup 7 mHi false 5 100 (DeleteOutcome.err ErrKind.other) 2).stats.original_duplicates
        = sDup.stats.original_duplicates
    ∧ getErr (handleMessage defaultConfig sDup 7 mHi false 5 100 (DeleteOutcome.err ErrKind.other) 2) 7
        = getErr sDup 7 + 1
    ∧ (∀ c' : Int, c' ≠ 7 →
        alookup (handleMessage defaultConfig sDup 7 mHi false 5 100 (DeleteOutcome.err ErrKind.other) 2).error_tracker c'
          = alookup sDup.error_tracker c')
    ∧ (handleMessage defaultConfig sDup 7 mHi false 5 100 (DeleteOutcome.err ErrKind.other) 2).rate_limit_tracker
        = (if ErrKind.other = ErrKind.rateLimited
           then aset sDup.rate_limit_tracker 7 (getRate sDup 7 ++ [100])
           else sDup.rate_limit_tracker)
    ∧ getActive (handleMessage defaultConfig sDup 7 mHi false 5 100 (DeleteOutcome.err ErrKind.other) 2) 7
        = (if getErr sDup 7 + 1 > defaultConfig.maxErrors then false else true)
    ∧ (handleMessage defaultConfig sDup 7 mHi false 5 100 (DeleteOutcome.err ErrKind.other) 2).auto_activated_channels
        = sDup.auto_activated_channels
    ∧ (handleMessage defaultConfig sDup 7 mHi false 5 100 (DeleteOutcome.err ErrKind.other) 2).stats.messages_processed
        = sDup.stats.messages_processed + 1 :=
  C10_delete_failure_frame defaultConfig sDup 7 mHi 5 100 2 (str2cp "text:hi")
    (some "text") (recW 3) ErrKind.other (by decide) (by decide) (by decide) (by decide)

/-- C10 counterexample: on a rate-limited delete failure the handler
also appends the failure time to the per-chat rate-limit tracker, so the
per-conversation error counter and the activation flag are not the only
state that changes on the error path. -/
theorem C10_rate_tracker_changes_counterexample :
    (handleMessage defaultConfig sDup 7 mHi false 5 100
        (DeleteOutcome.err ErrKind.rateLimited) 2).rate_limit_tracker = [(7, [100])]
    ∧ sDup.rate_limit_tracker = [] := by
  decide

end DeDuperBot
